import Mathlib

/-!
Shallow embedding of the ARM3 memory-manager initialization core
(`ntoskrnl/mm/ARM3/mminit.c`) and proofs about it.

Conventions:
* `PFN_NUMBER`, `ULONG`, `SIZE_T` values are modelled as `ℕ`.  The theorems
  that quantify over inputs carry hypotheses keeping the values inside the
  32-bit range wherever the C arithmetic could otherwise wrap, so that the
  `ℕ` model agrees with the machine arithmetic of the source.
* Fallible code (`KeBugCheckEx`) is modelled with `Except Bugcheck`.
* Constants that live in `miarm.h` (not part of the sources here) are either
  taken as explicit parameters or defined with a comment pointing at the
  in-source evidence for their value.
-/

/-- Page size on the modelled x86 target (`PAGE_SIZE`); the spec fixes
`page_size = 4096`. -/
def PAGE_SIZE : ℕ := 4096

/-- Page shift (`PAGE_SHIFT`), `2 ^ PAGE_SHIFT = PAGE_SIZE`. -/
def PAGE_SHIFT : ℕ := 12

/-- One megabyte (`_1MB`). -/
def oneMB : ℕ := 1048576

/-- The loader memory-type enumeration (`TYPE_OF_MEMORY`), as listed by the
`LocationByMemoryType` initialisation in `MiScanMemoryDescriptors`. -/
inductive MemoryType where
  | LoaderExceptionBlock
  | LoaderSystemBlock
  | LoaderFree
  | LoaderBad
  | LoaderLoadedProgram
  | LoaderFirmwareTemporary
  | LoaderFirmwarePermanent
  | LoaderOsloaderHeap
  | LoaderOsloaderStack
  | LoaderSystemCode
  | LoaderHalCode
  | LoaderBootDriver
  | LoaderConsoleInDriver
  | LoaderConsoleOutDriver
  | LoaderStartupDpcStack
  | LoaderStartupKernelStack
  | LoaderStartupPanicStack
  | LoaderStartupPcrPage
  | LoaderStartupPdrPage
  | LoaderRegistryData
  | LoaderMemoryData
  | LoaderNlsData
  | LoaderSpecialMemory
  | LoaderBBTMemory
  | LoaderReserve
  | LoaderXIPRom
  | LoaderHALCachedMemory
  | LoaderLargePageFiller
  | LoaderErrorLogMemory
  deriving DecidableEq

/-- The page-list enumeration (`MMLISTS`); the source contains
`C_ASSERT(FreePageList == 1)`. -/
inductive MMLISTS where
  | ZeroedPageList
  | FreePageList
  | StandbyPageList
  | ModifiedPageList
  | ModifiedNoWritePageList
  | BadPageList
  | ActiveAndValid
  | TransitionPage
  deriving DecidableEq

/-- `LocationByMemoryType`, exactly as filled in by `MiScanMemoryDescriptors`
(lines 384-412); `none` models the `-1` sentinel (not part of the PFN
database). -/
def locationByMemoryType : MemoryType → Option MMLISTS
  | .LoaderExceptionBlock => some .ActiveAndValid
  | .LoaderSystemBlock => some .ActiveAndValid
  | .LoaderFree => some .FreePageList
  | .LoaderBad => some .BadPageList
  | .LoaderLoadedProgram => some .FreePageList
  | .LoaderFirmwareTemporary => some .FreePageList
  | .LoaderFirmwarePermanent => none
  | .LoaderOsloaderHeap => some .ActiveAndValid
  | .LoaderOsloaderStack => some .FreePageList
  | .LoaderSystemCode => some .ActiveAndValid
  | .LoaderHalCode => some .ActiveAndValid
  | .LoaderBootDriver => some .ActiveAndValid
  | .LoaderConsoleInDriver => some .ActiveAndValid
  | .LoaderConsoleOutDriver => some .ActiveAndValid
  | .LoaderStartupDpcStack => some .ActiveAndValid
  | .LoaderStartupKernelStack => some .ActiveAndValid
  | .LoaderStartupPanicStack => some .ActiveAndValid
  | .LoaderStartupPcrPage => some .ActiveAndValid
  | .LoaderStartupPdrPage => some .ActiveAndValid
  | .LoaderRegistryData => some .ActiveAndValid
  | .LoaderMemoryData => some .ActiveAndValid
  | .LoaderNlsData => some .ActiveAndValid
  | .LoaderSpecialMemory => none
  | .LoaderBBTMemory => none
  | .LoaderReserve => some .ActiveAndValid
  | .LoaderXIPRom => some .ActiveAndValid
  | .LoaderHALCachedMemory => some .ActiveAndValid
  | .LoaderLargePageFiller => some .ActiveAndValid
  | .LoaderErrorLogMemory => some .ActiveAndValid

/-- Macro `MiIsMemoryTypeInDatabase`: the location table entry is not `-1`. -/
def miIsMemoryTypeInDatabase (t : MemoryType) : Bool :=
  (locationByMemoryType t).isSome

/-- Macro `MiIsMemoryTypeFree`: the location table entry is `FreePageList`. -/
def miIsMemoryTypeFree (t : MemoryType) : Bool :=
  locationByMemoryType t = some MMLISTS.FreePageList

/-- A loader `MEMORY_ALLOCATION_DESCRIPTOR`: `(BasePage, PageCount,
MemoryType)`. -/
structure MemoryDescriptor where
  basePage : ℕ
  pageCount : ℕ
  memoryType : MemoryType
  deriving DecidableEq

/-- The global state written by `MiScanMemoryDescriptors`.  `freeDescriptor`
models the `MxFreeDescriptor` pointer together with the position of the
pointed-to descriptor in the loader list (the source compares the pointer
itself against `MxFreeDescriptor` later, which is position identity);
`earlyAllocCount` is `MiEarlyAllocCount`. -/
structure ScanState where
  numberDescriptors : ℕ
  numberOfPhysicalPages : ℕ
  lowestPhysicalPage : ℕ
  highestPhysicalPage : ℕ
  numberOfFreePages : ℕ
  freeDescriptor : Option (ℕ × MemoryDescriptor)
  earlyAllocCount : ℕ
  deriving DecidableEq

/-- The initial global state: `MmNumberOfPhysicalPages = 0`,
`MmLowestPhysicalPage = (PFN_NUMBER)-1 = 0xFFFFFFFF`,
`MmHighestPhysicalPage = 0`, `MiNumberOfFreePages = 0`,
`MxFreeDescriptor = NULL`, `MiEarlyAllocCount = 0`. -/
def scanInitialState : ScanState :=
  ⟨0, 0, 0xFFFFFFFF, 0, 0, none, 0⟩

/-- One iteration of the loop in `MiScanMemoryDescriptors` (lines 414-458):
count the descriptor, skip types not in the database, add non-`LoaderBad`
page counts to the total, update the lowest/highest page from every
in-database descriptor (`LoaderBad` included), and for free-classified
descriptors accumulate `MiNumberOfFreePages` and adopt the descriptor as
bootstrap donor when its page count beats the current `MiEarlyAllocCount`. -/
def scanStep (s : ScanState) (d : MemoryDescriptor) : ScanState :=
  let s1 := { s with numberDescriptors := s.numberDescriptors + 1 }
  if miIsMemoryTypeInDatabase d.memoryType then
    let s2 :=
      if d.memoryType ≠ MemoryType.LoaderBad then
        { s1 with numberOfPhysicalPages := s1.numberOfPhysicalPages + d.pageCount }
      else s1
    let s3 :=
      { s2 with
        lowestPhysicalPage := min s2.lowestPhysicalPage d.basePage
        highestPhysicalPage := max s2.highestPhysicalPage (d.basePage + d.pageCount - 1) }
    if miIsMemoryTypeFree d.memoryType then
      let s4 := { s3 with numberOfFreePages := s3.numberOfFreePages + d.pageCount }
      if d.pageCount > s4.earlyAllocCount then
        { s4 with
          freeDescriptor := some (s4.numberDescriptors - 1, d)
          earlyAllocCount := d.pageCount }
      else s4
    else s3
  else s1

/-- The loop of `MiScanMemoryDescriptors` over the whole loader list. -/
def miScanMemoryDescriptors (ls : List MemoryDescriptor) : ScanState :=
  ls.foldl scanStep scanInitialState

/-- What `MiScanMemoryDescriptors` leaves behind after the final snapshot
`MxOldFreeDescriptor = *MxFreeDescriptor; MiEarlyAllocBase =
MxFreeDescriptor->BasePage` (lines 460-463). -/
structure ScanResult where
  state : ScanState
  oldFreeDescriptor : MemoryDescriptor
  earlyAllocBase : ℕ
  freeIndex : ℕ
  deriving DecidableEq

/-- Full `MiScanMemoryDescriptors` including the trailing snapshot.  When no
free descriptor was adopted, `MxFreeDescriptor` is still `NULL` at line 462
and the snapshot dereferences a null pointer; that crash is modelled as
`none`. -/
def miScanMemoryDescriptorsFull (ls : List MemoryDescriptor) : Option ScanResult :=
  let s := miScanMemoryDescriptors ls
  match s.freeDescriptor with
  | none => none
  | some (i, d) => some ⟨s, d, d.basePage, i⟩

/-- A `KeBugCheckEx` invocation: the stop code and its four arguments. -/
structure Bugcheck where
  code : ℕ
  arg1 : ℕ
  arg2 : ℕ
  arg3 : ℕ
  arg4 : ℕ
  deriving DecidableEq

/-- Stop code `INSTALL_MORE_MEMORY`. -/
def INSTALL_MORE_MEMORY : ℕ := 0x7D

/-- The state consumed and updated by `MiEarlyAllocPages`:
`MiEarlyAllocBase`, `MiEarlyAllocCount`, the (unmodified)
`MxFreeDescriptor->PageCount` field, and `MmNumberOfPhysicalPages` (read
only for the bugcheck arguments). -/
structure EarlyAllocState where
  allocBase : ℕ
  allocCount : ℕ
  freeDescPageCount : ℕ
  physicalPages : ℕ
  deriving DecidableEq

/-- `MiEarlyAllocPages` (lines 466-488): if the request exceeds
`MiEarlyAllocCount`, bugcheck `INSTALL_MORE_MEMORY` with arguments
`(MmNumberOfPhysicalPages, MiEarlyAllocCount, MxFreeDescriptor->PageCount,
PageCount)`; otherwise return `MiEarlyAllocBase` and advance it by
`PageCount` while decrementing `MiEarlyAllocCount`. -/
def miEarlyAllocPages (pageCount : ℕ) (s : EarlyAllocState) :
    Except Bugcheck (ℕ × EarlyAllocState) :=
  if pageCount > s.allocCount then
    .error ⟨INSTALL_MORE_MEMORY, s.physicalPages, s.allocCount, s.freeDescPageCount, pageCount⟩
  else
    .ok (s.allocBase,
      { s with allocBase := s.allocBase + pageCount, allocCount := s.allocCount - pageCount })

/-- `MiComputeColorInformation` (lines 490-542).  The constants
`MI_SECONDARY_COLORS` (default), `MI_MIN_SECONDARY_COLORS` and
`MI_MAX_SECONDARY_COLORS` live in `miarm.h` and are taken as the parameters
`defColors`, `minColors`, `maxColors`.  `preset` is the incoming value of
`MmSecondaryColors` (0 when no registry setting was provided), `l2Size` and
`l2Assoc` are the KPCR second-level cache size and associativity.  Returns
`(MmSecondaryColors, MmSecondaryColorMask)`. -/
def miComputeColorInformation (minColors maxColors defColors : ℕ)
    (preset l2Size l2Assoc : ℕ) : ℕ × ℕ :=
  let colors := if preset = 0 then (if l2Assoc ≠ 0 then l2Size / l2Assoc else l2Size)
                else preset
  let colors := colors >>> PAGE_SHIFT
  let colors :=
    if colors = 0 then defColors
    else
      let colors := if colors > maxColors then maxColors else colors
      let colors := if colors < minColors then defColors else colors
      if colors &&& (colors - 1) ≠ 0 then defColors else colors
  (colors, colors - 1)

/-- Virtual base address of the PFN database (`MmPfnDatabase`); the source
comments place it at `0xB0000000` (line 60). -/
def MmPfnDatabaseBase : ℕ := 0xB0000000

/-- Size in bytes of one `MMPFN` record.  Modelled from the spec: the
`MMPFN` layout lives in `miarm.h`; on the 32-bit target its six dword-sized
members (`u1`, `PteAddress`, `u2`, `u3`, `OriginalPte`, `u4`) give 24
bytes.  None of the proved properties depend on the exact value. -/
def sizeofMMPFN : ℕ := 24

/-- Size in bytes of one `MMCOLOR_TABLES` record: `Flink` (ULONG), `Blink`
(PVOID), `Count` (ULONG) as used at lines 585-590, 12 bytes on the 32-bit
target. -/
def sizeofMMCOLOR_TABLES : ℕ := 12

/-- Page-protection attribute subset used here (`MI_PFN_CACHE_ATTRIBUTE`). -/
inductive CacheAttribute where
  | Cached
  | NonCached
  | WriteCombined
  deriving DecidableEq

/-- One PFN database record (`MMPFN`), restricted to the fields this file
writes. -/
structure MmPfn where
  pteAddress : ℕ
  shareCount : ℕ
  referenceCount : ℕ
  pageLocation : MMLISTS
  cacheAttribute : CacheAttribute
  rom : Bool
  prototypePte : Bool
  inPageError : Bool
  pteFrame : ℕ
  flink : ℕ
  deriving DecidableEq

/-- A zeroed `MMPFN` record (the backing pages are zeroed when mapped, and
`ZeroedPageList`/`Cached` are the zero encodings of the bitfields). -/
def zeroPfn : MmPfn :=
  ⟨0, 0, 0, .ZeroedPageList, .Cached, false, false, false, 0, 0⟩

/-- Pointwise update of the PFN array at one frame index. -/
def updPfn (f : ℕ → MmPfn) (p : ℕ) (g : MmPfn → MmPfn) : ℕ → MmPfn :=
  fun q => if q = p then g (f q) else f q

/-- State manipulated while building the PFN database: the set of valid PTEs
covering the PFN-database region (indices `va / PAGE_SIZE` of the kernel
page tables), the bootstrap allocator state, the PFN array, and the
per-color `FreePageList` chains of `MmFreePagesByColor` (head of list =
`Flink` head). -/
structure PfnDbState where
  validPtes : List ℕ
  earlyAlloc : EarlyAllocState
  pfn : ℕ → MmPfn
  colorFree : ℕ → List ℕ

/-- `MiAddressToPte` reduced to the PTE index of a virtual address on the
two-level x86 target. -/
def miAddressToPteIndex (va : ℕ) : ℕ := va / PAGE_SIZE

/-- Map one PTE of the PFN-database region if it is not already valid
(lines 633-650 and 561-576): allocate one bootstrap frame, write a valid
PTE, zero the page. -/
def mapOnePte (s : PfnDbState) (idx : ℕ) : Except Bugcheck PfnDbState :=
  if idx ∈ s.validPtes then .ok s
  else do
    let r ← miEarlyAllocPages 1 s.earlyAlloc
    .ok { s with validPtes := idx :: s.validPtes, earlyAlloc := r.2 }

/-- The list of PTE indices covering the virtual range `[first, last]`,
walked by `while (PointerPte <= LastPte)`. -/
def pteIndexRange (first last : ℕ) : List ℕ :=
  List.range' first (last + 1 - first)

/-- Modelled from the spec: `MiInsertPageInFreeList` is provided by the
pfnlist/pool subsystem (§6 of the spec) and is not among these sources.
Per §4.4/§5 it pushes the page at the head (LIFO) of the free list of the
page's color, the color being the page index masked with
`MmSecondaryColorMask`; a listed frame carries `page_location = Free`
(§3). -/
def miInsertPageInFreeList (colorMask : ℕ) (p : ℕ) (s : PfnDbState) : PfnDbState :=
  { s with
    colorFree := fun c => if c = (p &&& colorMask) then p :: s.colorFree c else s.colorFree c
    pfn := updPfn s.pfn p (fun e => { e with pageLocation := .FreePageList }) }

/-- Free-run insertion loop (lines 662-679 and 720-734): walk the range
high-to-low; for each frame set `CacheAttribute = MiNonCached` and call
`MiInsertPageInFreeList`. -/
def insertFreeRun (colorMask base : ℕ) : ℕ → PfnDbState → PfnDbState
  | 0, s => s
  | n + 1, s =>
    let p := base + n
    let s := { s with pfn := updPfn s.pfn p (fun e => { e with cacheAttribute := .NonCached }) }
    insertFreeRun colorMask base n (miInsertPageInFreeList colorMask p s)

/-- In-use marking loop for non-free, non-ROM descriptors (lines 701-717):
walk the range low-to-high, stamping each record as `ActiveAndValid` with
one share and one reference. -/
def markInUseRun (base : ℕ) : ℕ → (ℕ → MmPfn) → (ℕ → MmPfn)
  | 0, f => f
  | n + 1, f =>
    markInUseRun (base + 1) n (updPfn f base (fun e =>
      { e with
        pteFrame := 0
        pteAddress := 0
        shareCount := e.shareCount + 1
        referenceCount := 1
        pageLocation := .ActiveAndValid
        cacheAttribute := .NonCached }))

/-- ROM marking loop for `LoaderXIPRom` descriptors (lines 680-699). -/
def markRomRun (base : ℕ) : ℕ → (ℕ → MmPfn) → (ℕ → MmPfn)
  | 0, f => f
  | n + 1, f =>
    markRomRun (base + 1) n (updPfn f base (fun _ =>
      { pteAddress := 0
        shareCount := 0
        referenceCount := 0
        pageLocation := .ZeroedPageList
        cacheAttribute := .NonCached
        rom := true
        prototypePte := true
        inPageError := false
        pteFrame := 0
        flink := 0 }))

/-- Processing of one descriptor inside the `MiMapPfnDatabase` loop (lines
610-718): skip non-database types; map the PTE range covering the affected
PFN records (allocating bootstrap frames as needed); skip the bootstrap
(free) descriptor; for `LoaderBad` the source emits a debug print saying
the boot is stopped, but the guard is only `ASSERT(FALSE)`, which is
compiled out in release builds (the file even defines `NDEBUG`, line 12),
so control falls through to the regular in-use classification; free
descriptors are pushed on the color free lists high-to-low; `LoaderXIPRom`
gets ROM records; everything else is marked in use. -/
def mapDescriptorStep (colorMask bootstrapIdx : ℕ) (s : PfnDbState)
    (e : ℕ × MemoryDescriptor) : Except Bugcheck PfnDbState :=
  let i := e.1
  let d := e.2
  if miIsMemoryTypeInDatabase d.memoryType then do
    let first := miAddressToPteIndex (MmPfnDatabaseBase + sizeofMMPFN * d.basePage)
    let last := miAddressToPteIndex (MmPfnDatabaseBase + sizeofMMPFN * (d.basePage + d.pageCount) - 1)
    let s ← (pteIndexRange first last).foldlM mapOnePte s
    if i = bootstrapIdx then .ok s
    else if miIsMemoryTypeFree d.memoryType then
      .ok (insertFreeRun colorMask d.basePage d.pageCount s)
    else if d.memoryType = MemoryType.LoaderXIPRom then
      .ok { s with pfn := markRomRun d.basePage d.pageCount s.pfn }
    else
      .ok { s with pfn := markInUseRun d.basePage d.pageCount s.pfn }
  else .ok s

/-- `MiMapPfnDatabase` (lines 594-738): walk the loader list mapping and
classifying, then push the unconsumed bootstrap pages
`[MiEarlyAllocBase, MiEarlyAllocBase + MiEarlyAllocCount)` onto the free
lists high-to-low (lines 720-734). -/
def miMapPfnDatabase (colorMask bootstrapIdx : ℕ) (ls : List MemoryDescriptor)
    (s0 : PfnDbState) : Except Bugcheck PfnDbState := do
  let s ← ls.enum.foldlM (mapDescriptorStep colorMask bootstrapIdx) s0
  .ok (insertFreeRun colorMask s.earlyAlloc.allocBase s.earlyAlloc.allocCount s)

/-- `MiInitializeColorTables` (lines 544-592): the color tables start right
after the PFN database (`&MmPfnDatabase[MmHighestPhysicalPage + 1]`); the
PTEs covering the two arrays of `MmSecondaryColors` entries are mapped like
the database pages, and then every color's list head is initialised to the
empty list (`Flink = Blink = 0xFFFFFFFF`, `Count = 0`). -/
def miColorTables (colors highestPage : ℕ) (s : PfnDbState) :
    Except Bugcheck PfnDbState := do
  let start := MmPfnDatabaseBase + sizeofMMPFN * (highestPage + 1)
  let first := miAddressToPteIndex start
  let last := miAddressToPteIndex (start + 2 * colors * sizeofMMCOLOR_TABLES - 1)
  let s ← (pteIndexRange first last).foldlM mapOnePte s
  .ok { s with colorFree := fun _ => [] }

/-- The `PfnDbState` at entry of `MiInitializePfnDatabase`, built from the
scanner's results: no PFN-database PTE is valid yet, the bootstrap
allocator sits at the saved free descriptor, and the PFN array is zeroed
page by page as it is mapped. -/
def pfnInitialState (r : ScanResult) : PfnDbState :=
  { validPtes := []
    earlyAlloc :=
      { allocBase := r.earlyAllocBase
        allocCount := r.state.earlyAllocCount
        freeDescPageCount := r.oldFreeDescriptor.pageCount
        physicalPages := r.state.numberOfPhysicalPages }
    pfn := fun _ => zeroPfn
    colorFree := fun _ => [] }

/-- The effect of `MiInitializePfnDatabase` (lines 911-930) on the color
free lists: it runs `MiMapPfnDatabase` first and `MiInitializeColorTables`
second; the remaining passes (`MiBuildPfnDatabaseFromPages`,
`MiBuildPfnDatabaseZeroPage`, `MiBuildPfnDatabaseSelf`, lines 740-909)
never reference `MmFreePagesByColor`, so the color-table state after the
whole routine is the state after these two calls.  `none` propagates the
null-pointer crash of a scan that found no free descriptor. -/
def miInitializePfnColorState (colors colorMask : ℕ) (ls : List MemoryDescriptor) :
    Option (Except Bugcheck PfnDbState) :=
  match miScanMemoryDescriptorsFull ls with
  | none => none
  | some r => some (do
      let s ← miMapPfnDatabase colorMask r.freeIndex ls (pfnInitialState r)
      miColorTables colors r.state.highestPhysicalPage s)

/-- Whether an `Except` computation succeeded. -/
def exceptOk : Except Bugcheck PfnDbState → Bool
  | .ok _ => true
  | .error _ => false

/-- Read one PFN record out of a possibly failed construction. -/
def pfnEntryOf (r : Except Bugcheck PfnDbState) (p : ℕ) : Option MmPfn :=
  match r with
  | .ok s => some (s.pfn p)
  | .error _ => none

/-- Read one per-color free list out of a possibly failed construction. -/
def colorListOf (r : Except Bugcheck PfnDbState) (c : ℕ) : Option (List ℕ) :=
  match r with
  | .ok s => some (s.colorFree c)
  | .error _ => none

/-- One `PHYSICAL_MEMORY_RUN`. -/
structure PhysicalMemoryRun where
  basePage : ℕ
  pageCount : ℕ
  deriving DecidableEq

/-- The result of `MmInitializeMemoryLimits`: a `PHYSICAL_MEMORY_DESCRIPTOR`
(`NumberOfRuns` is the length of `runs`). -/
structure PhysicalMemoryDescriptorBlock where
  runs : List PhysicalMemoryRun
  numberOfPages : ℕ
  deriving DecidableEq

/-- Loop state of `MmInitializeMemoryLimits`: the runs built so far (most
recent first), the next expected page, and the running page total.
`nextPage` starts as `(PFN_NUMBER)-1`; it is modelled as `none` since no
descriptor base can match it before a first run exists (a real base is at
most `0xFFFFFFFF - 1` because `BasePage + PageCount` fits in 32 bits). -/
structure MemoryLimitsState where
  runsRev : List PhysicalMemoryRun
  nextPage : Option ℕ
  pageCount : ℕ

/-- One iteration of the descriptor walk in `MmInitializeMemoryLimits`
(lines 1363-1412): include the descriptor when its type passes
`IncludeType`; add its pages to the total; extend the current run when the
descriptor starts at the next expected page, otherwise open a new run. -/
def limitsStep (includeType : MemoryType → Bool) (s : MemoryLimitsState)
    (d : MemoryDescriptor) : MemoryLimitsState :=
  if includeType d.memoryType then
    let s := { s with pageCount := s.pageCount + d.pageCount }
    if s.nextPage = some d.basePage then
      match s.runsRev with
      | r :: rest =>
        { s with
          runsRev := ⟨r.basePage, r.pageCount + d.pageCount⟩ :: rest
          nextPage := some (d.basePage + d.pageCount) }
      | [] => s
    else
      { s with
        runsRev := ⟨d.basePage, d.pageCount⟩ :: s.runsRev
        nextPage := some (d.basePage + d.pageCount) }
  else s

/-- `MmInitializeMemoryLimits` (lines 1333-1455), with the pool allocations
elided (the function merely right-sizes its result buffer; the run and
total computation is the loop). -/
def mmInitializeMemoryLimits (includeType : MemoryType → Bool)
    (ls : List MemoryDescriptor) : PhysicalMemoryDescriptorBlock :=
  let s := ls.foldl (limitsStep includeType) ⟨[], none, 0⟩
  ⟨s.runsRev.reverse, s.pageCount⟩

/-- The memory-threshold computation of `MiInitializeMemoryEvents` (lines
1081-1123).  `lowOverrideMB` / `highOverrideMB` are the registry values of
`MmLowMemoryThreshold` / `MmHighMemoryThreshold` (0 = not set, otherwise
MiB); `plenty` is `MmPlentyFreePages`; `pages` is
`MmNumberOfPhysicalPages`.  Returns
`(MmLowMemoryThreshold, MmHighMemoryThreshold)` in pages. -/
def miMemoryThresholds (lowOverrideMB highOverrideMB plenty pages : ℕ) : ℕ × ℕ :=
  let low :=
    if lowOverrideMB ≠ 0 then lowOverrideMB * (oneMB / PAGE_SIZE)
    else
      let low := plenty
      let low :=
        if pages > 0x40000 then (32 * oneMB) / PAGE_SIZE + ((pages - 0x40000) >>> 7)
        else if pages > 0x8000 then low + ((pages - 0x8000) >>> 5)
        else low
      min low ((64 * oneMB) / PAGE_SIZE)
  let high :=
    if highOverrideMB ≠ 0 then highOverrideMB * (oneMB / PAGE_SIZE)
    else 3 * low
  (low, max high low)

/-- `MI_MIN_INIT_PAGED_POOLSIZE` from `miarm.h`: the source keeps paged pool
at "at least 32MB" (comment at line 1514) and sizes the default
`MmSizeOfPagedPoolInBytes` with it (line 111). -/
def MI_MIN_INIT_PAGED_POOLSIZE : ℕ := 32 * oneMB

/-- The `BYTES_TO_PAGES` macro: bytes rounded up to whole pages. -/
def bytesToPages (b : ℕ) : ℕ := b / PAGE_SIZE + (if b % PAGE_SIZE = 0 then 0 else 1)

/-- The paged-pool sizing of `MiBuildPagedPool` (lines 1496-1529), producing
the number of page tables (`Size` after line 1523): twice the maximum
nonpaged pool, clamped so it does not overflow into nonpaged system VA,
raised to at least 32 MB, converted to pages and then to whole PDEs. -/
def miPagedPoolPdeCount (maxNonPagedPoolBytes pagedPoolStart nonPagedSystemStart : ℕ) : ℕ :=
  let bytes := 2 * maxNonPagedPoolBytes
  let bytes :=
    if bytes > nonPagedSystemStart - pagedPoolStart then nonPagedSystemStart - pagedPoolStart
    else bytes
  let size := if bytes < MI_MIN_INIT_PAGED_POOLSIZE then MI_MIN_INIT_PAGED_POOLSIZE else bytes
  let size := bytesToPages size
  (size + (1024 - 1)) / 1024

/-- `MmSizeOfPagedPoolInPages` as recomputed at lines 1528-1529 and checked
by the `ASSERT(Size == MmSizeOfPagedPoolInPages)` at line 1610. -/
def mmSizeOfPagedPoolInPages (maxNonPagedPoolBytes pagedPoolStart nonPagedSystemStart : ℕ) : ℕ :=
  miPagedPoolPdeCount maxNonPagedPoolBytes pagedPoolStart nonPagedSystemStart * 1024

/-- Size in bytes of an `RTL_BITMAP` header (`ULONG SizeOfBitMap` plus
`PULONG Buffer`), 8 bytes on the 32-bit target; the struct comes from the
NT headers, not from these sources. -/
def sizeofRTL_BITMAP : ℕ := 8

/-- The paged-pool bitmap allocation size in bytes: line 1612 reassigns
`Size = sizeof(RTL_BITMAP) + (((Size + 31) / 32) * sizeof(ULONG))`, where
`Size` was `MmSizeOfPagedPoolInPages` (`pages` here) just before.  `Size`
keeps this byte value for the rest of `MiBuildPagedPool`. -/
def miPagedPoolBitmapAllocSize (pages : ℕ) : ℕ :=
  sizeofRTL_BITMAP + ((pages + 31) / 32) * 4

/-- `MiLowPagedPoolThreshold` (lines 1657-1659): 30 MB or `Size / 5`,
whichever is smaller.  At that point `Size` is no longer the paged-pool
page count but the bitmap allocation size in bytes set at line 1612
(`miPagedPoolBitmapAllocSize` of the page count), so that is the quantity
`sizeBytes` stands for. -/
def miLowPagedPoolThreshold (sizeBytes : ℕ) : ℕ :=
  min ((30 * oneMB) >>> PAGE_SHIFT) (sizeBytes / 5)

/-- `MiHighPagedPoolThreshold` (lines 1661-1663): 60 MB or `(Size * 2) / 5`,
whichever is smaller, over the same bitmap allocation byte size as
`miLowPagedPoolThreshold`. -/
def miHighPagedPoolThreshold (sizeBytes : ℕ) : ℕ :=
  min ((60 * oneMB) >>> PAGE_SHIFT) ((sizeBytes * 2) / 5)

/-- Modelled from the spec: `MiInitializeNonPagedPoolThresholds` is
delegated to the pool subsystem (§4.8: "Nonpaged pool analogous"), so the
nonpaged thresholds follow the same shape as the paged-pool pair, over the
nonpaged pool page count. -/
def miLowNonPagedPoolThreshold (pages : ℕ) : ℕ :=
  min ((30 * oneMB) >>> PAGE_SHIFT) (pages / 5)

/-- Modelled from the spec: high nonpaged-pool threshold, analogous to the
paged-pool pair (§4.8). -/
def miHighNonPagedPoolThreshold (pages : ℕ) : ℕ :=
  min ((60 * oneMB) >>> PAGE_SHIFT) ((pages * 2) / 5)

/-- An `RTL_BITMAP`: a declared bit count plus the backing bits. -/
structure RtlBitmap where
  sizeOfBitMap : ℕ
  buffer : ℕ → Bool

/-- `RtlInitializeBitMap`: records the size over a caller-supplied buffer
whose contents are whatever they were (`junk`). -/
def rtlInitializeBitMap (n : ℕ) (junk : ℕ → Bool) : RtlBitmap := ⟨n, junk⟩

/-- `RtlSetAllBits`. -/
def rtlSetAllBits (b : RtlBitmap) : RtlBitmap := { b with buffer := fun _ => true }

/-- `RtlClearAllBits`. -/
def rtlClearAllBits (b : RtlBitmap) : RtlBitmap := { b with buffer := fun _ => false }

/-- `RtlClearBits` over `[start, start + count)`. -/
def rtlClearBits (b : RtlBitmap) (start count : ℕ) : RtlBitmap :=
  { b with buffer := fun i => if start ≤ i ∧ i < start + count then false else b.buffer i }

/-- The paged-pool bitmap construction of `MiBuildPagedPool` (lines
1602-1650): both bitmaps are created with `BitMapSize =
MmSizeOfPagedPoolInPages`; the allocation map has all bits set and then the
first 1024 cleared; the end-of-allocation map is cleared entirely.  `junk1`
and `junk2` stand for the uninitialised pool buffers. -/
def miPagedPoolBitmaps (maxNonPagedPoolBytes pagedPoolStart nonPagedSystemStart : ℕ)
    (junk1 junk2 : ℕ → Bool) : RtlBitmap × RtlBitmap :=
  let bitMapSize := mmSizeOfPagedPoolInPages maxNonPagedPoolBytes pagedPoolStart nonPagedSystemStart
  let allocMap := rtlClearBits (rtlSetAllBits (rtlInitializeBitMap bitMapSize junk1)) 0 1024
  let endMap := rtlClearAllBits (rtlInitializeBitMap bitMapSize junk2)
  (allocMap, endMap)

/-- The low-memory-threshold formula as the spec states it (§4.8):
`plenty_free_pages` by default; above 1 GiB, `32 MiB/page_size + ((pages −
256K) >> 7)`; above 128 MiB, `plenty + ((pages − 32K) >> 5)`; finally
clamped to at most `64 MiB/page_size`. -/
def specLowMemoryThreshold (plenty pages : ℕ) : ℕ :=
  min (if pages > 0x40000 then (32 * oneMB) / PAGE_SIZE + ((pages - 0x40000) >>> 7)
       else if pages > 0x8000 then plenty + ((pages - 0x8000) >>> 5)
       else plenty)
      ((64 * oneMB) / PAGE_SIZE)

/-- C5: with no registry override, `MiInitializeMemoryEvents` computes the
low memory threshold exactly as the spec formula states (default
`plenty_free_pages`; the 1 GiB and 128 MiB branches; the 64 MiB clamp) and
the high threshold as three times the low one; for a total of 524288 pages
this gives `low = 10240` and `high = 30720`. -/
theorem C5_low_memory_threshold_formula (plenty pages : ℕ) :
    miMemoryThresholds 0 0 plenty pages =
      (specLowMemoryThreshold plenty pages, 3 * specLowMemoryThreshold plenty pages) ∧
    miMemoryThresholds 0 0 plenty 524288 = (10240, 30720) := by
  constructor
  · unfold miMemoryThresholds specLowMemoryThreshold
    simp only [ne_eq, not_true_eq_false, if_false]
    rw [Nat.max_eq_left (Nat.le_mul_of_pos_left _ (by norm_num))]
  · unfold miMemoryThresholds oneMB PAGE_SIZE
    norm_num
    simp only [Nat.shiftRight_eq_div_pow]
    omega

/-- C3: the bootstrap allocator `MiEarlyAllocPages` bugchecks with
`INSTALL_MORE_MEMORY` and arguments `(MmNumberOfPhysicalPages,
MiEarlyAllocCount, MxFreeDescriptor->PageCount, PageCount)` when the
request exceeds the remaining count; otherwise it returns the current base
and advances base/remaining by the request, so two successive allocations
are contiguous and their page ranges disjoint.  With 3 pages remaining (and
an original bootstrap descriptor of 3 pages), the fourth single-page
allocation bugchecks with arguments `(total, 0, 3, 1)`. -/
theorem C3_early_alloc_contract (s : EarlyAllocState) (n n2 : ℕ) :
    (s.allocCount < n →
      miEarlyAllocPages n s =
        .error ⟨INSTALL_MORE_MEMORY, s.physicalPages, s.allocCount, s.freeDescPageCount, n⟩) ∧
    (n ≤ s.allocCount →
      miEarlyAllocPages n s =
        .ok (s.allocBase,
          ⟨s.allocBase + n, s.allocCount - n, s.freeDescPageCount, s.physicalPages⟩)) ∧
    (∀ b1 s1 b2 s2,
      miEarlyAllocPages n s = .ok (b1, s1) →
      miEarlyAllocPages n2 s1 = .ok (b2, s2) →
      b2 = b1 + n ∧ ∀ i j, i < n → j < n2 → b1 + i ≠ b2 + j) ∧
    (s.allocCount = 3 → s.freeDescPageCount = 3 →
      (do
        let r1 ← miEarlyAllocPages 1 s
        let r2 ← miEarlyAllocPages 1 r1.2
        let r3 ← miEarlyAllocPages 1 r2.2
        miEarlyAllocPages 1 r3.2) =
        Except.error ⟨INSTALL_MORE_MEMORY, s.physicalPages, 0, 3, 1⟩) := by
  refine ⟨?_, ?_, ?_, ?_⟩
  · intro h
    unfold miEarlyAllocPages
    rw [if_pos (by omega)]
  · intro h
    unfold miEarlyAllocPages
    rw [if_neg (by omega)]
  · intro b1 s1 b2 s2 h1 h2
    unfold miEarlyAllocPages at h1 h2
    by_cases hc1 : n > s.allocCount
    · rw [if_pos hc1] at h1; exact absurd h1 (by simp)
    · rw [if_neg hc1] at h1
      obtain ⟨hb1, hs1⟩ : b1 = s.allocBase ∧
          s1 = { s with allocBase := s.allocBase + n, allocCount := s.allocCount - n } := by
        have := h1
        simp only [Except.ok.injEq, Prod.mk.injEq] at this
        exact ⟨this.1.symm, this.2.symm⟩
      by_cases hc2 : n2 > s1.allocCount
      · rw [if_pos hc2] at h2; exact absurd h2 (by simp)
      · rw [if_neg hc2] at h2
        have hb2 : b2 = s1.allocBase := by
          simp only [Except.ok.injEq, Prod.mk.injEq] at h2
          exact h2.1.symm
        subst hb1 hs1 hb2
        constructor
        · rfl
        · intro i j hi hj
          simp only
          omega
  · intro h3 hf3
    obtain ⟨base, count, fdpc, phys⟩ := s
    simp only at h3 hf3
    subst h3 hf3
    rfl

/-- C9: `MiBuildPagedPool` creates both paged-pool bitmaps with size equal
to the full paged-pool page count `MmSizeOfPagedPoolInPages` (which is
always at least 8192, in particular larger than 1024); the allocation map
has every bit set except bits 0..1023, which are clear, and the
end-of-allocation map has every bit clear. -/
theorem C9_paged_pool_bitmaps (mnpp pps npss : ℕ) (junk1 junk2 : ℕ → Bool) (i : ℕ) :
    (miPagedPoolBitmaps mnpp pps npss junk1 junk2).1.sizeOfBitMap =
      mmSizeOfPagedPoolInPages mnpp pps npss ∧
    (miPagedPoolBitmaps mnpp pps npss junk1 junk2).2.sizeOfBitMap =
      mmSizeOfPagedPoolInPages mnpp pps npss ∧
    1024 < (miPagedPoolBitmaps mnpp pps npss junk1 junk2).1.sizeOfBitMap ∧
    (miPagedPoolBitmaps mnpp pps npss junk1 junk2).1.buffer i = decide (1024 ≤ i) ∧
    (miPagedPoolBitmaps mnpp pps npss junk1 junk2).2.buffer i = false := by
  have hge : 8192 ≤ mmSizeOfPagedPoolInPages mnpp pps npss := by
    unfold mmSizeOfPagedPoolInPages miPagedPoolPdeCount bytesToPages MI_MIN_INIT_PAGED_POOLSIZE
      oneMB PAGE_SIZE
    dsimp only
    split_ifs <;> omega
  refine ⟨rfl, rfl, ?_, ?_, rfl⟩
  · calc 1024 < 8192 := by norm_num
      _ ≤ _ := hge
  · unfold miPagedPoolBitmaps rtlClearBits rtlSetAllBits rtlInitializeBitMap
    simp only
    split_ifs with h
    · simp [Nat.lt_iff_add_one_le] at h ⊢
      omega
    · simp at h ⊢
      omega

/-- Whether a possibly failed construction has page `p` on the free list of
color `c`. -/
def colorListHas (r : Except Bugcheck PfnDbState) (c p : ℕ) : Bool :=
  match colorListOf r c with
  | some l => l.contains p
  | none => false

/-- Loader list for the bad-RAM scenario (spec S2 shape): a free bootstrap
run followed by a `LoaderBad` descriptor. -/
def c4Descriptors : List MemoryDescriptor :=
  [⟨0, 8, .LoaderFree⟩, ⟨8, 2, .LoaderBad⟩]

/-- `MiMapPfnDatabase` run on `c4Descriptors` after the scan (the scan is
known to succeed on this list; the error fallback is never reached). -/
def c4MapResult : Except Bugcheck PfnDbState :=
  match miScanMemoryDescriptorsFull c4Descriptors with
  | none => .error ⟨0, 0, 0, 0, 0⟩
  | some r => miMapPfnDatabase 1 r.freeIndex c4Descriptors (pfnInitialState r)

/-- C4: on a list with a non-bootstrap `LoaderBad` descriptor,
`MiMapPfnDatabase` does not abort: the `ASSERT(FALSE)` guarding the bad-RAM
case is compiled out in release builds (the file itself defines `NDEBUG`),
so the routine completes and the damaged pages 8 and 9 are marked
`ActiveAndValid` and referenced as if they were healthy in-use RAM,
contradicting the claimed fatal abort. -/
theorem C4_bad_descriptor_marked_active :
    exceptOk c4MapResult = true ∧
    (pfnEntryOf c4MapResult 8).map (fun e => e.pageLocation) = some MMLISTS.ActiveAndValid ∧
    (pfnEntryOf c4MapResult 9).map (fun e => e.pageLocation) = some MMLISTS.ActiveAndValid ∧
    (pfnEntryOf c4MapResult 8).map (fun e => e.referenceCount) = some 1 ∧
    (pfnEntryOf c4MapResult 8).map (fun e => e.shareCount) = some 1 := by
  decide

/-- Loader list for the free-list ordering scenario: a small free run below
the (larger) free bootstrap run. -/
def c1Descriptors : List MemoryDescriptor :=
  [⟨0, 8, .LoaderFree⟩, ⟨16, 32, .LoaderFree⟩]

/-- The color-list state right after `MiMapPfnDatabase` on `c1Descriptors`
(two colors, mask 1). -/
def c1MapOnly : Except Bugcheck PfnDbState :=
  match miScanMemoryDescriptorsFull c1Descriptors with
  | none => .error ⟨0, 0, 0, 0, 0⟩
  | some r => miMapPfnDatabase 1 r.freeIndex c1Descriptors (pfnInitialState r)

/-- The color-list state after the full PFN database construction
(`MiMapPfnDatabase` followed by `MiInitializeColorTables`; the later passes
do not touch `MmFreePagesByColor`). -/
def c1FinalState : Except Bugcheck PfnDbState :=
  (miInitializePfnColorState 2 1 c1Descriptors).getD (.error ⟨0, 0, 0, 0, 0⟩)

/-- C1: after the full `MiInitializePfnDatabase` sequence the per-color
free lists in `MmFreePagesByColor` do not hold the free pages at all:
`MiMapPfnDatabase` pushes every free page (page 2 of the free descriptor
shown as a sample) onto the lists, but `MiInitializeColorTables` runs
afterwards and reinitialises every color's list head to empty, so after
construction both color lists are empty even though the construction
succeeded and the loader list contains free pages. -/
theorem C1_free_color_lists_empty_after_construction :
    colorListHas c1MapOnly 0 2 = true ∧
    exceptOk c1FinalState = true ∧
    colorListOf c1FinalState 0 = some [] ∧
    colorListOf c1FinalState 1 = some [] ∧
    colorListHas c1FinalState 0 2 = false ∧
    (c1Descriptors.filter (fun d => miIsMemoryTypeFree d.memoryType)).length = 2 := by
  decide

/-- C10 (counterexample): on the empty loader list `MiScanMemoryDescriptors`
does not complete normally: `MxFreeDescriptor` is still null when the
routine snapshots it at line 462, so the final snapshot dereferences a null
pointer (modelled as `none`). -/
theorem C10_scan_empty_list_crash :
    miScanMemoryDescriptorsFull [] = none := rfl

/-- C6 (counterexample): with registry overrides `LowMemoryThreshold = 1`
and `HighMemoryThreshold = 1` (both 1 MiB), the computed thresholds are
both 256 pages, so the claimed strict inequality
`MmHighMemoryThreshold > MmLowMemoryThreshold` fails. -/
theorem C6_thresholds_counterexample :
    ¬ ((miMemoryThresholds 1 1 400 1000).1 < (miMemoryThresholds 1 1 400 1000).2) := by
  decide

/-- Loader list whose descriptors are not sorted by base page. -/
def c7Unsorted : List MemoryDescriptor :=
  [⟨100, 100, .LoaderFree⟩, ⟨0, 100, .LoaderFree⟩]

/-- C7 (counterexample): on a loader list that is not sorted by base page,
`MmInitializeMemoryLimits` returns runs that are neither sorted by base nor
maximal: the two adjacent included runs `(100,100)` and `(0,100)` stay
separate and come out in descending base order. -/
theorem C7_runs_counterexample :
    (mmInitializeMemoryLimits (fun _ => true) c7Unsorted).runs =
      [⟨100, 100⟩, ⟨0, 100⟩] ∧
    ¬ List.Chain' (fun a b => a.basePage ≤ b.basePage)
        (mmInitializeMemoryLimits (fun _ => true) c7Unsorted).runs := by
  constructor
  · decide
  · intro h
    rw [show (mmInitializeMemoryLimits (fun _ => true) c7Unsorted).runs =
          [⟨100, 100⟩, ⟨0, 100⟩] from by decide] at h
    have := List.chain'_cons.mp h
    simp at this

/-- A nonzero natural whose bitwise AND with its predecessor vanishes (the
power-of-two test used at line 532 of the source) is a power of two. -/
theorem pow2_of_land_pred : ∀ n : ℕ, n ≠ 0 → n &&& (n - 1) = 0 → ∃ k, n = 2 ^ k := by
  intro n
  induction n using Nat.strong_induction_on with
  | _ n ih =>
    intro hn h
    have hbit : ∀ i, ((n / 2).testBit i && ((n - 1) / 2).testBit i) = false := by
      intro i
      have hc : (n &&& (n - 1)).testBit (i + 1) = Nat.testBit 0 (i + 1) := by rw [h]
      rw [Nat.testBit_and, Nat.zero_testBit, Nat.testBit_add_one, Nat.testBit_add_one] at hc
      exact hc
    rcases Nat.even_or_odd n with he | ho
    · obtain ⟨m, hm⟩ := he
      have hm2 : n = 2 * m := by omega
      have hmz : m ≠ 0 := by omega
      have h1 : n / 2 = m := by omega
      have h2 : (n - 1) / 2 = m - 1 := by omega
      have hz : m &&& (m - 1) = 0 := by
        apply Nat.eq_of_testBit_eq
        intro i
        rw [Nat.testBit_and, Nat.zero_testBit]
        have := hbit i
        rwa [h1, h2] at this
      obtain ⟨k, hk⟩ := ih m (by omega) hmz hz
      exact ⟨k + 1, by rw [hm2, hk]; ring⟩
    · obtain ⟨m, hm⟩ := ho
      rcases Nat.eq_zero_or_pos m with hm0 | hmpos
      · exact ⟨0, by omega⟩
      · exfalso
        have h1 : n / 2 = m := by omega
        have h2 : (n - 1) / 2 = m := by omega
        have hb : ∀ i, m.testBit i = false := by
          intro i
          have := hbit i
          rw [h1, h2, Bool.and_self] at this
          exact this
        have : m = 0 := Nat.zero_of_testBit_eq_false hb
        omega

/-- C8: for any choice of color bounds with a power-of-two default inside
the range and a power-of-two maximum (the `miarm.h` constants
`MI_MIN_SECONDARY_COLORS`, `MI_MAX_SECONDARY_COLORS`,
`MI_SECONDARY_COLORS` satisfy this) and any L2 cache size/associativity,
`MiComputeColorInformation` produces a power-of-two color count inside
`[min, max]` with mask `colors - 1`; zero or unavailable raw data falls
back to the default, and for a 512 KiB 4-way L2 with 4 KiB pages the result
is 32 colors with mask 31. -/
theorem C8_color_power_of_two (minColors maxColors defColors l2Size l2Assoc : ℕ)
    (hrange : minColors ≤ defColors ∧ defColors ≤ maxColors)
    (hdef : ∃ k, defColors = 2 ^ k) (hmax : ∃ k, maxColors = 2 ^ k) :
    (∃ k, miComputeColorInformation minColors maxColors defColors 0 l2Size l2Assoc =
        (2 ^ k, 2 ^ k - 1) ∧ minColors ≤ 2 ^ k ∧ 2 ^ k ≤ maxColors) ∧
    miComputeColorInformation 16 1024 64 0 (512 * 1024) 4 = (32, 31) := by
  constructor
  · obtain ⟨kd, hkd⟩ := hdef
    obtain ⟨km, hkm⟩ := hmax
    unfold miComputeColorInformation
    dsimp only
    set x := (if (0 : ℕ) = 0 then (if l2Assoc ≠ 0 then l2Size / l2Assoc else l2Size)
              else 0) >>> PAGE_SHIFT with hx
    clear_value x
    obtain ⟨h1, h2⟩ := hrange
    split_ifs with g1 g2 g3 g4 g5 g6 g7 g8 <;>
      first
        | exact ⟨kd, by rw [hkd], by omega, by omega⟩
        | exact ⟨km, by rw [hkm], by omega, by omega⟩
        | (obtain ⟨k, hk⟩ := pow2_of_land_pred x (by omega) (by omega)
           exact ⟨k, by rw [hk], by omega, by omega⟩)
  · decide

/-- C8 witness: the concrete S4 scenario instantiating the bounds with the
representative values 16/1024/64. -/
theorem C8_color_power_of_two_witness :
    (∃ k, miComputeColorInformation 16 1024 64 0 (512 * 1024) 4 =
        (2 ^ k, 2 ^ k - 1) ∧ 16 ≤ 2 ^ k ∧ 2 ^ k ≤ 1024) ∧
    miComputeColorInformation 16 1024 64 0 (512 * 1024) 4 = (32, 31) :=
  C8_color_power_of_two 16 1024 64 (512 * 1024) 4 ⟨by norm_num, by norm_num⟩ ⟨6, rfl⟩ ⟨10, rfl⟩


/-- Effect of one scan step on the adopted bootstrap descriptor: it is
replaced exactly when an in-database free descriptor beats the current
`MiEarlyAllocCount`. -/
theorem scanStep_freeDesc_char (s : ScanState) (d : MemoryDescriptor) :
    (scanStep s d).freeDescriptor =
      (if miIsMemoryTypeInDatabase d.memoryType = true ∧
          miIsMemoryTypeFree d.memoryType = true ∧ s.earlyAllocCount < d.pageCount
       then some (s.numberDescriptors, d) else s.freeDescriptor) := by
  unfold scanStep
  dsimp only
  split_ifs <;> simp_all

/-- Effect of one scan step on `MiEarlyAllocCount`. -/
theorem scanStep_count_char (s : ScanState) (d : MemoryDescriptor) :
    (scanStep s d).earlyAllocCount =
      (if miIsMemoryTypeInDatabase d.memoryType = true ∧
          miIsMemoryTypeFree d.memoryType = true ∧ s.earlyAllocCount < d.pageCount
       then d.pageCount else s.earlyAllocCount) := by
  unfold scanStep
  dsimp only
  split_ifs <;> simp_all

/-- Effect of one scan step on `MmNumberOfPhysicalPages`: every in-database
descriptor except `LoaderBad` contributes its page count. -/
theorem scanStep_pages_char (s : ScanState) (d : MemoryDescriptor) :
    (scanStep s d).numberOfPhysicalPages =
      (if miIsMemoryTypeInDatabase d.memoryType = true ∧ d.memoryType ≠ MemoryType.LoaderBad
       then s.numberOfPhysicalPages + d.pageCount else s.numberOfPhysicalPages) := by
  unfold scanStep
  dsimp only
  split_ifs <;> simp_all

/-- Effect of one scan step on `MmLowestPhysicalPage`: every in-database
descriptor (including `LoaderBad`) participates in the minimum. -/
theorem scanStep_lowest_char (s : ScanState) (d : MemoryDescriptor) :
    (scanStep s d).lowestPhysicalPage =
      (if miIsMemoryTypeInDatabase d.memoryType = true
       then min s.lowestPhysicalPage d.basePage else s.lowestPhysicalPage) := by
  unfold scanStep
  dsimp only
  split_ifs <;> simp_all

/-- Effect of one scan step on `MmHighestPhysicalPage`: every in-database
descriptor (including `LoaderBad`) participates in the maximum. -/
theorem scanStep_highest_char (s : ScanState) (d : MemoryDescriptor) :
    (scanStep s d).highestPhysicalPage =
      (if miIsMemoryTypeInDatabase d.memoryType = true
       then max s.highestPhysicalPage (d.basePage + d.pageCount - 1)
       else s.highestPhysicalPage) := by
  unfold scanStep
  dsimp only
  split_ifs <;> simp_all

/-- A free-classified memory type is in the database. -/
theorem free_mem_in_database (t : MemoryType)
    (h : miIsMemoryTypeFree t = true) : miIsMemoryTypeInDatabase t = true := by
  unfold miIsMemoryTypeFree at h
  unfold miIsMemoryTypeInDatabase
  cases hl : locationByMemoryType t <;> simp [hl] at h ⊢

/-- Folding `scanStep` over a list containing a free descriptor with pages
(or starting from a state that already adopted one) ends with an adopted
bootstrap descriptor. -/
theorem scan_fold_isSome :
    ∀ (ls : List MemoryDescriptor) (s : ScanState),
      (0 < s.earlyAllocCount → s.freeDescriptor.isSome = true) →
      ((∃ d ∈ ls, miIsMemoryTypeFree d.memoryType = true ∧ 0 < d.pageCount) ∨
        s.freeDescriptor.isSome = true) →
      ((ls.foldl scanStep s).freeDescriptor).isSome = true := by
  intro ls
  induction ls with
  | nil =>
    intro s _ h
    rcases h with h | h
    · simp at h
    · exact h
  | cons d tl ih =>
    intro s hinv h
    rw [List.foldl_cons]
    have hinv2 : 0 < (scanStep s d).earlyAllocCount →
        ((scanStep s d).freeDescriptor).isSome = true := by
      rw [scanStep_count_char, scanStep_freeDesc_char]
      split_ifs <;> simp_all
    rcases h with h | h
    · obtain ⟨d0, hd0, hfree0, hc0⟩ := h
      rcases List.mem_cons.mp hd0 with rfl | hmem
      · -- the head is the free descriptor: after this step one is adopted
        apply ih (scanStep s d0) hinv2
        right
        rw [scanStep_freeDesc_char]
        have hdb := free_mem_in_database d0.memoryType hfree0
        split_ifs with hcond
        · simp
        · -- adoption failed only because a descriptor at least as large is adopted
          exact hinv (by simp [hdb, hfree0] at hcond; omega)
      · exact ih (scanStep s d) hinv2 (Or.inl ⟨d0, hmem, hfree0, hc0⟩)
    · apply ih (scanStep s d) hinv2
      right
      rw [scanStep_freeDesc_char]
      split_ifs <;> simp_all

/-- C10 (amended): `MiScanMemoryDescriptors` completes normally whenever the
loader list contains at least one free-classified descriptor with a nonzero
page count (insufficient memory then only surfaces later, in the bootstrap
allocator); without such a descriptor the trailing snapshot dereferences
the null `MxFreeDescriptor`, so the empty list is not handled gracefully. -/
theorem C10_scan_completes (ls : List MemoryDescriptor)
    (h : ∃ d ∈ ls, miIsMemoryTypeFree d.memoryType = true ∧ 0 < d.pageCount) :
    (miScanMemoryDescriptorsFull ls).isSome = true := by
  unfold miScanMemoryDescriptorsFull miScanMemoryDescriptors
  have hs := scan_fold_isSome ls scanInitialState
    (by intro hc; simp [scanInitialState] at hc) (Or.inl h)
  rcases hfd : (List.foldl scanStep scanInitialState ls).freeDescriptor with _ | ⟨i, d⟩
  · rw [hfd] at hs; simp at hs
  · simp [hfd]

/-- C10 witness: a single free descriptor makes the scan complete. -/
theorem C10_scan_completes_witness :
    (miScanMemoryDescriptorsFull [⟨0x100, 0x1000, .LoaderFree⟩]).isSome = true :=
  C10_scan_completes [⟨0x100, 0x1000, .LoaderFree⟩]
    ⟨⟨0x100, 0x1000, .LoaderFree⟩, by simp, by decide, by decide⟩

/-- The in-database descriptors of a loader list. -/
def inDbDescs (ls : List MemoryDescriptor) : List MemoryDescriptor :=
  ls.filter (fun d => miIsMemoryTypeInDatabase d.memoryType)

/-- The scan accumulates `MmNumberOfPhysicalPages` as the sum of the page
counts of the in-database non-`LoaderBad` descriptors. -/
theorem scan_fold_pages :
    ∀ (ls : List MemoryDescriptor) (s : ScanState),
      (ls.foldl scanStep s).numberOfPhysicalPages =
        s.numberOfPhysicalPages +
          (((inDbDescs ls).filter (fun d => d.memoryType ≠ MemoryType.LoaderBad)).map
            (fun d => d.pageCount)).sum := by
  intro ls
  induction ls with
  | nil => intro s; simp [inDbDescs]
  | cons d tl ih =>
    intro s
    rw [List.foldl_cons, ih, scanStep_pages_char]
    by_cases h1 : miIsMemoryTypeInDatabase d.memoryType = true
    · have hdb : inDbDescs (d :: tl) = d :: inDbDescs tl := by
        simp [inDbDescs, List.filter_cons, h1]
      rw [hdb]
      by_cases h2 : d.memoryType = MemoryType.LoaderBad
      · rw [if_neg (by simp [h2]), List.filter_cons, if_neg (by simp [h2])]
      · rw [if_pos ⟨h1, h2⟩, List.filter_cons, if_pos (by simp [h2]), List.map_cons,
          List.sum_cons]
        omega
    · have hdb : inDbDescs (d :: tl) = inDbDescs tl := by
        simp [inDbDescs, List.filter_cons, h1]
      rw [hdb, if_neg (by simp [h1])]

/-- The scan accumulates `MmLowestPhysicalPage` as the running minimum of
the in-database base pages. -/
theorem scan_fold_lowest :
    ∀ (ls : List MemoryDescriptor) (s : ScanState),
      (ls.foldl scanStep s).lowestPhysicalPage =
        ((inDbDescs ls).map (fun d => d.basePage)).foldl min s.lowestPhysicalPage := by
  intro ls
  induction ls with
  | nil => intro s; simp [inDbDescs]
  | cons d tl ih =>
    intro s
    rw [List.foldl_cons, ih, scanStep_lowest_char]
    by_cases h1 : miIsMemoryTypeInDatabase d.memoryType = true
    · simp [inDbDescs, List.filter_cons, h1]
    · simp [inDbDescs, List.filter_cons, h1]

/-- The scan accumulates `MmHighestPhysicalPage` as the running maximum of
the in-database descriptor end pages. -/
theorem scan_fold_highest :
    ∀ (ls : List MemoryDescriptor) (s : ScanState),
      (ls.foldl scanStep s).highestPhysicalPage =
        ((inDbDescs ls).map (fun d => d.basePage + d.pageCount - 1)).foldl max
          s.highestPhysicalPage := by
  intro ls
  induction ls with
  | nil => intro s; simp [inDbDescs]
  | cons d tl ih =>
    intro s
    rw [List.foldl_cons, ih, scanStep_highest_char]
    by_cases h1 : miIsMemoryTypeInDatabase d.memoryType = true
    · simp [inDbDescs, List.filter_cons, h1]
    · simp [inDbDescs, List.filter_cons, h1]

/-- A left fold of `min` never exceeds its initial value. -/
theorem foldl_min_le_init : ∀ (l : List ℕ) (a : ℕ), l.foldl min a ≤ a := by
  intro l
  induction l with
  | nil => intro a; simp
  | cons x xs ih =>
    intro a
    calc (x :: xs).foldl min a = xs.foldl min (min a x) := by rw [List.foldl_cons]
    _ ≤ min a x := ih _
    _ ≤ a := min_le_left _ _

/-- A left fold of `min` is below every member. -/
theorem foldl_min_le_mem :
    ∀ (l : List ℕ) (a x : ℕ), x ∈ l → l.foldl min a ≤ x := by
  intro l
  induction l with
  | nil => intro a x hx; simp at hx
  | cons y ys ih =>
    intro a x hx
    rcases List.mem_cons.mp hx with rfl | hmem
    · calc (x :: ys).foldl min a = ys.foldl min (min a x) := by rw [List.foldl_cons]
      _ ≤ min a x := foldl_min_le_init _ _
      _ ≤ x := min_le_right _ _
    · rw [List.foldl_cons]
      exact ih _ x hmem

/-- A left fold of `min` is the initial value or a member. -/
theorem foldl_min_mem_or_init :
    ∀ (l : List ℕ) (a : ℕ), l.foldl min a = a ∨ l.foldl min a ∈ l := by
  intro l
  induction l with
  | nil => intro a; left; rfl
  | cons y ys ih =>
    intro a
    rw [List.foldl_cons]
    rcases ih (min a y) with h | h
    · rw [h]
      rcases Nat.le_total a y with hle | hle
      · left; exact Nat.min_eq_left hle
      · right; rw [Nat.min_eq_right hle]; simp
    · right; exact List.mem_cons_of_mem _ h

/-- A left fold of `max` is at least its initial value. -/
theorem foldl_max_init_le : ∀ (l : List ℕ) (a : ℕ), a ≤ l.foldl max a := by
  intro l
  induction l with
  | nil => intro a; simp
  | cons x xs ih =>
    intro a
    calc a ≤ max a x := le_max_left _ _
    _ ≤ xs.foldl max (max a x) := ih _
    _ = (x :: xs).foldl max a := by rw [List.foldl_cons]

/-- A left fold of `max` is above every member. -/
theorem foldl_max_mem_le :
    ∀ (l : List ℕ) (a x : ℕ), x ∈ l → x ≤ l.foldl max a := by
  intro l
  induction l with
  | nil => intro a x hx; simp at hx
  | cons y ys ih =>
    intro a x hx
    rcases List.mem_cons.mp hx with rfl | hmem
    · calc x ≤ max a x := le_max_right _ _
      _ ≤ ys.foldl max (max a x) := foldl_max_init_le _ _
      _ = (x :: ys).foldl max a := by rw [List.foldl_cons]
    · rw [List.foldl_cons]
      exact ih _ x hmem

/-- A left fold of `max` is the initial value or a member. -/
theorem foldl_max_mem_or_init :
    ∀ (l : List ℕ) (a : ℕ), l.foldl max a = a ∨ l.foldl max a ∈ l := by
  intro l
  induction l with
  | nil => intro a; left; rfl
  | cons y ys ih =>
    intro a
    rw [List.foldl_cons]
    rcases ih (max a y) with h | h
    · rw [h]
      rcases Nat.le_total a y with hle | hle
      · right; rw [Nat.max_eq_right hle]; simp
      · left; exact Nat.max_eq_left hle
    · right; exact List.mem_cons_of_mem _ h

/-- C2: after `MiScanMemoryDescriptors`, `MmNumberOfPhysicalPages` is the
sum of the page counts of the in-database descriptors that are not
`LoaderBad`, while `MmLowestPhysicalPage` / `MmHighestPhysicalPage` are the
minimum base page and the maximum end page over all in-database descriptors
including the `LoaderBad` ones.  The 32-bit bound keeps the `ℕ` model in
step with the `PFN_NUMBER` arithmetic (and makes the `0xFFFFFFFF` initial
minimum reachable only as an actual base page). -/
theorem C2_scan_totals (ls : List MemoryDescriptor)
    (hb : ∀ d ∈ ls, 0 < d.pageCount ∧ d.basePage + d.pageCount ≤ 2 ^ 32)
    (hne : inDbDescs ls ≠ []) :
    (miScanMemoryDescriptors ls).numberOfPhysicalPages =
      (((inDbDescs ls).filter (fun d => d.memoryType ≠ MemoryType.LoaderBad)).map
        (fun d => d.pageCount)).sum ∧
    ((miScanMemoryDescriptors ls).lowestPhysicalPage ∈
        (inDbDescs ls).map (fun d => d.basePage) ∧
      ∀ b ∈ (inDbDescs ls).map (fun d => d.basePage),
        (miScanMemoryDescriptors ls).lowestPhysicalPage ≤ b) ∧
    ((miScanMemoryDescriptors ls).highestPhysicalPage ∈
        (inDbDescs ls).map (fun d => d.basePage + d.pageCount - 1) ∧
      ∀ e ∈ (inDbDescs ls).map (fun d => d.basePage + d.pageCount - 1),
        e ≤ (miScanMemoryDescriptors ls).highestPhysicalPage) := by
  unfold miScanMemoryDescriptors
  refine ⟨?_, ⟨?_, ?_⟩, ⟨?_, ?_⟩⟩
  · rw [scan_fold_pages]
    simp [scanInitialState]
  · rw [scan_fold_lowest]
    rcases foldl_min_mem_or_init ((inDbDescs ls).map (fun d => d.basePage))
        scanInitialState.lowestPhysicalPage with h | h
    · -- the fold never went below the sentinel: some base equals the sentinel
      obtain ⟨d0, hd0⟩ := List.exists_mem_of_ne_nil _ hne
      have hb0 : d0.basePage ∈ (inDbDescs ls).map (fun d => d.basePage) :=
        List.mem_map_of_mem _ hd0
      have hle := foldl_min_le_mem _ scanInitialState.lowestPhysicalPage _ hb0
      have hmem := (List.mem_filter.mp hd0).1
      have hbound := hb d0 hmem
      have : ((inDbDescs ls).map (fun d => d.basePage)).foldl min
          scanInitialState.lowestPhysicalPage = d0.basePage := by
        simp only [scanInitialState] at h hle ⊢
        omega
      rw [this]
      exact hb0
    · exact h
  · rw [scan_fold_lowest]
    intro b hbm
    exact foldl_min_le_mem _ _ _ hbm
  · rw [scan_fold_highest]
    rcases foldl_max_mem_or_init ((inDbDescs ls).map (fun d => d.basePage + d.pageCount - 1))
        scanInitialState.highestPhysicalPage with h | h
    · obtain ⟨d0, hd0⟩ := List.exists_mem_of_ne_nil _ hne
      have he0 : d0.basePage + d0.pageCount - 1 ∈
          (inDbDescs ls).map (fun d => d.basePage + d.pageCount - 1) :=
        List.mem_map_of_mem _ hd0
      have hle := foldl_max_mem_le _ scanInitialState.highestPhysicalPage _ he0
      have : ((inDbDescs ls).map (fun d => d.basePage + d.pageCount - 1)).foldl max
          scanInitialState.highestPhysicalPage = d0.basePage + d0.pageCount - 1 := by
        simp only [scanInitialState] at h hle ⊢
        omega
      rw [this]
      exact he0
    · exact h
  · rw [scan_fold_highest]
    intro e hem
    exact foldl_max_mem_le _ _ _ hem

/-- Concrete loader list for the C2 witness: a free run and a bad run. -/
def c2List : List MemoryDescriptor :=
  [⟨0x100, 0x1000, .LoaderFree⟩, ⟨0x2000, 0x10, .LoaderBad⟩]

/-- C2 witness: the concrete list instantiates the scan-totals theorem. -/
theorem C2_scan_totals_witness :
    (miScanMemoryDescriptors c2List).numberOfPhysicalPages =
      (((inDbDescs c2List).filter (fun d => d.memoryType ≠ MemoryType.LoaderBad)).map
        (fun d => d.pageCount)).sum ∧
    ((miScanMemoryDescriptors c2List).lowestPhysicalPage ∈
        (inDbDescs c2List).map (fun d => d.basePage) ∧
      ∀ b ∈ (inDbDescs c2List).map (fun d => d.basePage),
        (miScanMemoryDescriptors c2List).lowestPhysicalPage ≤ b) ∧
    ((miScanMemoryDescriptors c2List).highestPhysicalPage ∈
        (inDbDescs c2List).map (fun d => d.basePage + d.pageCount - 1) ∧
      ∀ e ∈ (inDbDescs c2List).map (fun d => d.basePage + d.pageCount - 1),
        e ≤ (miScanMemoryDescriptors c2List).highestPhysicalPage) :=
  C2_scan_totals c2List (by decide) (by decide)

/-- The paged pool spans at least 8192 pages (32 MB of 4 KiB pages), by the
`MI_MIN_INIT_PAGED_POOLSIZE` clamp in `MiBuildPagedPool`. -/
theorem pagedPoolPages_ge (mnpp pps npss : ℕ) :
    8192 ≤ mmSizeOfPagedPoolInPages mnpp pps npss := by
  unfold mmSizeOfPagedPoolInPages miPagedPoolPdeCount bytesToPages MI_MIN_INIT_PAGED_POOLSIZE
    oneMB PAGE_SIZE
  dsimp only
  split_ifs <;> omega

/-- C6 (amended): the strict ordering `high > low` of the total-memory
thresholds holds whenever the registry does not override the high
threshold (the final `max` only guarantees `high ≥ low` when overrides are
present, as the counterexample shows); the paged-pool threshold pair is
strict for the quantity the code actually divides by 5 — the bitmap
allocation byte size that `Size` holds after line 1612 — over the
paged-pool page count `MiBuildPagedPool` actually produces, and the
(spec-modelled) nonpaged pair is strict for any pool of at least 3 pages
(the minimum nonpaged pool is 64 pages, line 40 of the source). -/
theorem C6_threshold_ordering (plenty pages lowOv highOv mnpp pps npss np : ℕ)
    (hplenty : 0 < plenty) (hnp : 3 ≤ np) :
    (miMemoryThresholds lowOv 0 plenty pages).1 <
      (miMemoryThresholds lowOv 0 plenty pages).2 ∧
    (miMemoryThresholds lowOv highOv plenty pages).1 ≤
      (miMemoryThresholds lowOv highOv plenty pages).2 ∧
    miLowPagedPoolThreshold
        (miPagedPoolBitmapAllocSize (mmSizeOfPagedPoolInPages mnpp pps npss)) <
      miHighPagedPoolThreshold
        (miPagedPoolBitmapAllocSize (mmSizeOfPagedPoolInPages mnpp pps npss)) ∧
    miLowNonPagedPoolThreshold np < miHighNonPagedPoolThreshold np := by
  refine ⟨?_, ?_, ?_, ?_⟩
  · unfold miMemoryThresholds oneMB PAGE_SIZE
    dsimp only
    simp only [Nat.shiftRight_eq_div_pow]
    split_ifs <;> omega
  · unfold miMemoryThresholds
    dsimp only
    exact Nat.le_max_right _ _
  · have h8 := pagedPoolPages_ge mnpp pps npss
    unfold miLowPagedPoolThreshold miHighPagedPoolThreshold miPagedPoolBitmapAllocSize
      sizeofRTL_BITMAP oneMB PAGE_SHIFT
    simp only [Nat.shiftRight_eq_div_pow]
    omega
  · unfold miLowNonPagedPoolThreshold miHighNonPagedPoolThreshold oneMB PAGE_SHIFT
    simp only [Nat.shiftRight_eq_div_pow]
    omega

/-- C6 witness: default thresholds for a small machine, the default paged
pool, and a minimal 64-page nonpaged pool. -/
theorem C6_threshold_ordering_witness :
    (miMemoryThresholds 0 0 400 1000).1 < (miMemoryThresholds 0 0 400 1000).2 ∧
    (miMemoryThresholds 0 0 400 1000).1 ≤ (miMemoryThresholds 0 0 400 1000).2 ∧
    miLowPagedPoolThreshold (miPagedPoolBitmapAllocSize (mmSizeOfPagedPoolInPages 0 0 0)) <
      miHighPagedPoolThreshold (miPagedPoolBitmapAllocSize (mmSizeOfPagedPoolInPages 0 0 0)) ∧
    miLowNonPagedPoolThreshold 64 < miHighNonPagedPoolThreshold 64 :=
  C6_threshold_ordering 400 1000 0 0 0 0 0 64 (by decide) (by decide)

/-- Invariant of the `MmInitializeMemoryLimits` walk: the reversed run list
has strict gaps (each older run ends strictly before the newer one starts),
a recorded next-expected page means the newest run ends exactly there, and
no next-expected page means no run has been opened yet. -/
def LimitsInv (s : MemoryLimitsState) : Prop :=
  List.Chain' (fun a b => b.basePage + b.pageCount < a.basePage) s.runsRev ∧
  (∀ n, s.nextPage = some n →
    ∃ r rest, s.runsRev = r :: rest ∧ r.basePage + r.pageCount = n) ∧
  (s.nextPage = none → s.runsRev = [])

/-- Effect of one `MmInitializeMemoryLimits` step on the running total. -/
theorem limitsStep_pageCount (includeType : MemoryType → Bool)
    (s : MemoryLimitsState) (d : MemoryDescriptor) :
    (limitsStep includeType s d).pageCount =
      (if includeType d.memoryType then s.pageCount + d.pageCount else s.pageCount) := by
  obtain ⟨rs, np, pc⟩ := s
  unfold limitsStep
  dsimp only
  split_ifs <;> (try rfl) <;> (cases rs <;> rfl)

/-- The walk of `MmInitializeMemoryLimits` totals the page counts of the
included descriptors. -/
theorem limits_fold_pages (includeType : MemoryType → Bool) :
    ∀ (ls : List MemoryDescriptor) (s : MemoryLimitsState),
      (ls.foldl (limitsStep includeType) s).pageCount =
        s.pageCount +
          ((ls.filter (fun d => includeType d.memoryType)).map (fun d => d.pageCount)).sum := by
  intro ls
  induction ls with
  | nil => intro s; simp
  | cons d tl ih =>
    intro s
    rw [List.foldl_cons, ih, limitsStep_pageCount, List.filter_cons]
    by_cases h : includeType d.memoryType
    · rw [if_pos h, if_pos (by simp [h]), List.map_cons, List.sum_cons]
      omega
    · rw [if_neg h, if_neg (by simp [h])]

/-- One step of the walk preserves the run invariant provided every
remaining descriptor starts at or after the next expected page; sortedness
of the loader list then supplies that side condition for the rest of the
walk. -/
theorem limits_fold_inv (includeType : MemoryType → Bool) :
    ∀ (ls : List MemoryDescriptor) (s : MemoryLimitsState),
      List.Pairwise (fun a b => a.basePage + a.pageCount ≤ b.basePage) ls →
      LimitsInv s →
      (∀ d ∈ ls, ∀ n, s.nextPage = some n → n ≤ d.basePage) →
      LimitsInv (ls.foldl (limitsStep includeType) s) := by
  intro ls
  induction ls with
  | nil => intro s _ hinv _; exact hinv
  | cons d tl ih =>
    intro s hp hinv hnext
    obtain ⟨hhead, htl⟩ := List.pairwise_cons.mp hp
    rw [List.foldl_cons]
    by_cases hincl : includeType d.memoryType
    · by_cases hmerge : s.nextPage = some d.basePage
      · -- extend the newest run
        obtain ⟨r, rest, hr, hre⟩ := hinv.2.1 d.basePage hmerge
        have hstep : limitsStep includeType s d =
            { runsRev := ⟨r.basePage, r.pageCount + d.pageCount⟩ :: rest
              nextPage := some (d.basePage + d.pageCount)
              pageCount := s.pageCount + d.pageCount } := by
          unfold limitsStep
          rw [if_pos hincl]
          dsimp only
          rw [if_pos hmerge, hr]
        rw [hstep]
        apply ih
        · exact htl
        · refine ⟨?_, ?_, ?_⟩
          · -- gaps survive: the newest run keeps its base page
            have hc := hinv.1
            rw [hr] at hc
            rcases rest with _ | ⟨r2, rest2⟩
            · simp
            · obtain ⟨hrel, hrest⟩ := List.chain'_cons.mp hc
              exact List.chain'_cons.mpr ⟨hrel, hrest⟩
          · intro n hn
            simp only [Option.some.injEq] at hn
            exact ⟨_, rest, rfl, by dsimp only; omega⟩
          · intro hn; simp at hn
        · intro d' hd' n hn
          simp only [Option.some.injEq] at hn
          have := hhead d' hd'
          omega
      · -- open a new run
        have hstep : limitsStep includeType s d =
            { runsRev := ⟨d.basePage, d.pageCount⟩ :: s.runsRev
              nextPage := some (d.basePage + d.pageCount)
              pageCount := s.pageCount + d.pageCount } := by
          unfold limitsStep
          rw [if_pos hincl]
          dsimp only
          rw [if_neg hmerge]
        rw [hstep]
        apply ih
        · exact htl
        · refine ⟨?_, ?_, ?_⟩
          · -- the previous newest run (if any) ends strictly before the new base
            apply List.chain'_cons'.mpr
            constructor
            · intro r2 hr2
              rcases hnp : s.nextPage with _ | n
              · rw [hinv.2.2 hnp] at hr2
                simp at hr2
              · obtain ⟨r, rest, hr, hre⟩ := hinv.2.1 n hnp
                rw [hr] at hr2
                rw [List.head?_cons, Option.mem_some_iff] at hr2
                subst hr2
                have h1 := hnext d (List.mem_cons_self d tl) n hnp
                have h2 : n ≠ d.basePage := fun he => hmerge (by rw [hnp, he])
                dsimp only
                omega
            · exact hinv.1
          · intro n hn
            simp only [Option.some.injEq] at hn
            exact ⟨_, s.runsRev, rfl, by dsimp only; omega⟩
          · intro hn; simp at hn
        · intro d' hd' n hn
          simp only [Option.some.injEq] at hn
          have := hhead d' hd'
          omega
    · -- descriptor not included: state unchanged
      have hstep : limitsStep includeType s d = s := by
        unfold limitsStep
        rw [if_neg hincl]
      rw [hstep]
      apply ih _ htl hinv
      intro d' hd' n hn
      have h1 := hnext d (List.mem_cons_self d tl) n hn
      have h2 := hhead d' hd'
      omega

/-- C7 (amended): for a loader list sorted by base page with disjoint
ranges (the claim fails for unsorted lists, which the loader may in
principle supply), `MmInitializeMemoryLimits` returns the sum of the
included page counts as the total, and runs that are maximal (consecutive
runs are separated by a real gap, so no two adjacent included descriptors
stay split) and sorted by base page; the S3 scenario with four adjacent
descriptors produces the single run `(0, 350)` with total 350. -/
theorem C7_memory_limits_runs (includeType : MemoryType → Bool) (ls : List MemoryDescriptor)
    (hsort : List.Pairwise (fun a b => a.basePage + a.pageCount ≤ b.basePage) ls) :
    (mmInitializeMemoryLimits includeType ls).numberOfPages =
      ((ls.filter (fun d => includeType d.memoryType)).map (fun d => d.pageCount)).sum ∧
    List.Chain' (fun a b => a.basePage + a.pageCount < b.basePage)
      (mmInitializeMemoryLimits includeType ls).runs ∧
    List.Chain' (fun a b => a.basePage < b.basePage)
      (mmInitializeMemoryLimits includeType ls).runs ∧
    mmInitializeMemoryLimits (fun _ => true)
        [⟨0, 100, .LoaderFree⟩, ⟨100, 100, .LoaderFree⟩,
         ⟨200, 50, .LoaderBootDriver⟩, ⟨250, 100, .LoaderFree⟩] =
      ⟨[⟨0, 350⟩], 350⟩ := by
  have hinv := limits_fold_inv includeType ls ⟨[], none, 0⟩ hsort
    ⟨List.chain'_nil, by intro n hn; simp at hn, fun _ => rfl⟩
    (by intro d hd n hn; simp at hn)
  have hgap : List.Chain' (fun a b => a.basePage + a.pageCount < b.basePage)
      (mmInitializeMemoryLimits includeType ls).runs := by
    unfold mmInitializeMemoryLimits
    dsimp only
    exact List.chain'_reverse.mpr hinv.1
  refine ⟨?_, hgap, hgap.imp (fun a b h => by omega), by decide⟩
  unfold mmInitializeMemoryLimits
  dsimp only
  rw [limits_fold_pages]
  simp

/-- C7 witness: the S3 scenario list is sorted and disjoint, so the theorem
applies to it. -/
theorem C7_memory_limits_runs_witness :
    (mmInitializeMemoryLimits (fun _ => true)
        [⟨0, 100, .LoaderFree⟩, ⟨100, 100, .LoaderFree⟩,
         ⟨200, 50, .LoaderBootDriver⟩, ⟨250, 100, .LoaderFree⟩]).numberOfPages =
      ((([⟨0, 100, .LoaderFree⟩, ⟨100, 100, .LoaderFree⟩,
          ⟨200, 50, .LoaderBootDriver⟩,
          ⟨250, 100, .LoaderFree⟩] : List MemoryDescriptor).filter
        (fun d => (fun _ => true) d.memoryType)).map (fun d => d.pageCount)).sum ∧
    List.Chain' (fun a b => a.basePage + a.pageCount < b.basePage)
      (mmInitializeMemoryLimits (fun _ => true)
        [⟨0, 100, .LoaderFree⟩, ⟨100, 100, .LoaderFree⟩,
         ⟨200, 50, .LoaderBootDriver⟩, ⟨250, 100, .LoaderFree⟩]).runs ∧
    List.Chain' (fun a b => a.basePage < b.basePage)
      (mmInitializeMemoryLimits (fun _ => true)
        [⟨0, 100, .LoaderFree⟩, ⟨100, 100, .LoaderFree⟩,
         ⟨200, 50, .LoaderBootDriver⟩, ⟨250, 100, .LoaderFree⟩]).runs ∧
    mmInitializeMemoryLimits (fun _ => true)
        [⟨0, 100, .LoaderFree⟩, ⟨100, 100, .LoaderFree⟩,
         ⟨200, 50, .LoaderBootDriver⟩, ⟨250, 100, .LoaderFree⟩] =
      ⟨[⟨0, 350⟩], 350⟩ :=
  C7_memory_limits_runs (fun _ => true)
    [⟨0, 100, .LoaderFree⟩, ⟨100, 100, .LoaderFree⟩,
     ⟨200, 50, .LoaderBootDriver⟩, ⟨250, 100, .LoaderFree⟩] (by decide)

/-- C3 witness: a bootstrap run of three pages at base 100 on a
7777-page machine, exercising the bugcheck branch, the success branch and
the S6 exhaustion scenario. -/
theorem C3_early_alloc_contract_witness :
    miEarlyAllocPages 4 ⟨100, 3, 3, 7777⟩ =
      .error ⟨INSTALL_MORE_MEMORY, 7777, 3, 3, 4⟩ ∧
    miEarlyAllocPages 2 ⟨100, 3, 3, 7777⟩ = .ok (100, ⟨102, 1, 3, 7777⟩) ∧
    (do
      let r1 ← miEarlyAllocPages 1 (⟨100, 3, 3, 7777⟩ : EarlyAllocState)
      let r2 ← miEarlyAllocPages 1 r1.2
      let r3 ← miEarlyAllocPages 1 r2.2
      miEarlyAllocPages 1 r3.2) =
      Except.error ⟨INSTALL_MORE_MEMORY, 7777, 0, 3, 1⟩ :=
  ⟨(C3_early_alloc_contract ⟨100, 3, 3, 7777⟩ 4 1).1 (by decide),
   (C3_early_alloc_contract ⟨100, 3, 3, 7777⟩ 2 1).2.1 (by decide),
   (C3_early_alloc_contract ⟨100, 3, 3, 7777⟩ 1 1).2.2.2 rfl rfl⟩
